import Mathlib

/-!
Verification of the SmarterGPT answer-aggregation workflow (src/app.py).

The script collects, for a repetition count R (source default 2), R pairs of
(raw answer, double-checked answer) from a completion endpoint, joins the
collected answers into one triple-quote delimited block, and runs a
three-step synthesis chain (compare, resolve, summarize) whose last output
is displayed.

The completion endpoint is modelled as an oracle `g : Nat -> String -> String`
taking the index of the call (how many calls were issued before it) and the
instruction string, and returning the generated text.  A deterministic
endpoint, in which each call is a pure function of its instruction alone,
is the special case `fun _ instr => f instr`.  All stateful code of
`initialize` is embedded by explicit state passing: the state records the
list of instructions sent so far, so that call counts are observable.
-/

namespace SmarterGPT

/-- Embeds the single-quote character used three times for the delimiter. -/
def sqc : Char := '\x27'

/-- Embeds the Python literal of three single quotes used as delimiter. -/
def tick3 : String := ⟨[sqc, sqc, sqc]⟩

/-- Embeds the one-character newline string. -/
def nl1 : String := ⟨['\n']⟩

/-- Embeds the join separator literal of src/app.py line 126:
triple quote, newline, triple quote. -/
def tickSep : String := tick3 ++ nl1 ++ tick3

/-- Embeds `_INITIAL_Q_PROMPT` (src/app.py line 24). -/
def _INITIAL_Q_PROMPT : String :=
  "Answer the following carefully. Reflect on your answer \n"

/-- Embeds `_DOUBLE_CHECKER_PROMPT` (src/app.py line 25). -/
def _DOUBLE_CHECKER_PROMPT : String :=
  "You are given a question and an answer below. The answer may be wrong so double check the following question and answer:"

/-- Embeds `_REPETITIONS` (src/app.py line 26), the source default for R. -/
def _REPETITIONS : Nat := 2

/-- Embeds the part of `_COMPARISON_PROMPT` (src/app.py lines 27-28) before
the repetition placeholder. -/
def _COMPARISON_PROMPT_PRE : String :=
  "You are a researcher investigating the "

/-- Embeds the part of `_COMPARISON_PROMPT` between the repetition
placeholder and the question placeholder. -/
def _COMPARISON_PROMPT_MID : String :=
  " answers to the question [["

/-- Embeds the part of `_COMPARISON_PROMPT` after the question placeholder
(the Python backslash line continuation contributes five spaces after the
period). -/
def _COMPARISON_PROMPT_POST : String :=
  "]], each answer delimited by \x27\x27\x27.     Compare and contrast these answers. Let\x27s think about this step by step to make sure we find all inconsistencies."

/-- Embeds `_FINAL_ANSWER_PROMPT` (src/app.py lines 29-30). -/
def _FINAL_ANSWER_PROMPT : String :=
  "You are a resolver tasked to 1) find the best answer based on a compare-contrast opinion below, delimited by <<< and >>>     2) Improve on the answer. Let\x27s think about this step by step to make sure we have the correct answer."

/-- Embeds `_SUMMARY_PROMPT` (src/app.py line 31). -/
def _SUMMARY_PROMPT : String :=
  "Summarize the following answer to be more concise and straight to the point. Remove any unnecessary explanation: "

/-- Embeds the instruction built by `initial_q_template` (src/app.py
lines 51-54), the Python format of the template
with placeholders initial_q_prompt and question. -/
def initialQInstr (question : String) : String :=
  _INITIAL_Q_PROMPT ++ " Question: " ++ question

/-- Embeds the instruction built by `double_checker_template` (src/app.py
lines 57-60). -/
def doubleCheckerInstr (question answer : String) : String :=
  _DOUBLE_CHECKER_PROMPT ++ " Question: " ++ question ++ " Answer: " ++ answer

/-- Embeds `_COMPARISON_PROMPT.format(repetition=R, question=q)`
(src/app.py line 132): the repetition count is rendered in decimal into the
prompt text. -/
def formattedComparisonPrompt (R : Nat) (question : String) : String :=
  _COMPARISON_PROMPT_PRE ++ Nat.repr R ++ _COMPARISON_PROMPT_MID ++ question
    ++ _COMPARISON_PROMPT_POST

/-- Embeds the instruction built by `comparison_template` (src/app.py
lines 63-66): the formatted comparison prompt, a space, then the aggregated
answers block. -/
def comparisonInstr (R : Nat) (question answersBlock : String) : String :=
  formattedComparisonPrompt R question ++ " " ++ answersBlock

/-- Embeds the instruction built by `final_answer_template` (src/app.py
lines 69-72): the resolver prompt with the comparison narrative enclosed
between the bracket sequences. -/
def finalAnswerInstr (comparison : String) : String :=
  _FINAL_ANSWER_PROMPT ++ " <<<" ++ comparison ++ ">>>"

/-- Embeds the instruction built by `summary_template` (src/app.py
lines 75-78): the be-concise prompt, a space, then the final answer. -/
def summaryInstr (finalAnswer : String) : String :=
  _SUMMARY_PROMPT ++ " " ++ finalAnswer

/-- Embeds the Python `sep.join(l)` used at src/app.py line 126. -/
def pyJoin (sep : String) : List String → String
  | [] => ""
  | [a] => a
  | a :: b :: rest => a ++ sep ++ pyJoin sep (b :: rest)

/-- Embeds src/app.py lines 126-128: join the collected answers with the
seven-character separator and enclose the result in the triple-quote
delimiter. -/
def aggregate (l : List String) : String :=
  tick3 ++ pyJoin tickSep l ++ tick3

/-- State threaded through the workflow: the instructions sent to the
completion endpoint so far, in order. -/
structure EndpointState where
  calls : List String

/-- One call to the completion endpoint: the oracle is applied to the index
of the call and the instruction, and the instruction is recorded. -/
def callModel (g : Nat → String → String) (instr : String)
    (s : EndpointState) : String × EndpointState :=
  (g s.calls.length instr, ⟨s.calls ++ [instr]⟩)

/-- Embeds one invocation of `question_chain` (src/app.py lines 93-97,
118-119): the initial-question call followed by the double-checker call on
its output, yielding the pair (answer, checked_answer). -/
def question_chain (g : Nat → String → String) (question : String)
    (s : EndpointState) : (String × String) × EndpointState :=
  let r1 := callModel g (initialQInstr question) s
  let r2 := callModel g (doubleCheckerInstr question r1.1) r1.2
  ((r1.1, r2.1), r2.2)

/-- Embeds the repetition loop of src/app.py lines 117-122: run
`question_chain` n times, appending the raw and checked answer to
`initial_answers` and the checked answer to `checked_answer`.  Returns
((initial_answers, checked_answer), final state); the first iteration
contributes the earliest elements. -/
def repetitionLoop (g : Nat → String → String) (question : String)
    (s : EndpointState) : Nat → (List String × List String) × EndpointState
  | 0 => (([], []), s)
  | n + 1 =>
    let step := question_chain g question s
    let rest := repetitionLoop g question step.2 n
    ((step.1.1 :: step.1.2 :: rest.1.1, step.1.2 :: rest.1.2), rest.2)

/-- Embeds one invocation of `sequential_chain` (src/app.py lines 99-103,
133-134): the comparison call, the resolver call on its output, and the
summary call on that output, yielding (comparison, final_answer, summary). -/
def sequential_chain (g : Nat → String → String) (R : Nat)
    (question answersBlock : String) (s : EndpointState) :
    (String × String × String) × EndpointState :=
  let r1 := callModel g (comparisonInstr R question answersBlock) s
  let r2 := callModel g (finalAnswerInstr r1.1) r1.2
  let r3 := callModel g (summaryInstr r2.1) r2.2
  ((r1.1, r2.1, r3.1), r3.2)

/-- Observable results of one submitted run of the workflow. -/
structure RunResult where
  initial_answers : List String
  checked_answer : List String
  answers : String
  summary : String
  repCalls : List String
  seqCalls : List String

/-- Embeds the body of the submit branch of `initialize` (src/app.py
lines 113-149) with the repetition count as a parameter (source default
`_REPETITIONS`): run the repetition loop, aggregate the collected answers,
run the synthesis chain, and display the summary.  `repCalls` and
`seqCalls` record the endpoint instructions issued by the two phases. -/
def runWorkflow (g : Nat → String → String) (R : Nat) (question : String) :
    RunResult :=
  let lr := repetitionLoop g question ⟨[]⟩ R
  let answers := aggregate lr.1.1
  let sc := sequential_chain g R question answers lr.2
  { initial_answers := lr.1.1
    checked_answer := lr.1.2
    answers := answers
    summary := sc.1.2.2
    repCalls := lr.2.calls
    seqCalls := sc.2.calls.drop lr.2.calls.length }

/-- Embeds the submit guard of `initialize` (src/app.py line 107): the
workflow runs only when the submit button is pressed and the question is
not the empty string; otherwise nothing happens and nothing is displayed. -/
def submitApp (g : Nat → String → String) (R : Nat) (submit_button : Bool)
    (question : String) : Option RunResult :=
  if submit_button && question != "" then some (runWorkflow g R question)
  else none

/-- All instructions sent to the completion endpoint by a submission (none
when the guard suppresses the run). -/
def callsOf : Option RunResult → List String
  | none => []
  | some r => r.repCalls ++ r.seqCalls

/-- Counts the occurrences of the three-quote delimiter in a character
list, scanning left to right and consuming each match (the semantics of
Python str.count for this pattern). -/
def countTicks : List Char → Nat
  | a :: b :: c :: rest =>
    if a = sqc ∧ b = sqc ∧ c = sqc then 1 + countTicks rest
    else countTicks (b :: c :: rest)
  | _ => 0

/-- Raw answer of the repetition whose initial-question call is the call
with index k: the oracle applied to the formatted initial question. -/
def rawAt (g : Nat → String → String) (question : String) (k : Nat) :
    String :=
  g k (initialQInstr question)

/-- Checked answer of the repetition whose initial-question call is the
call with index k: the oracle applied to the double-checker instruction
built from that repetition and nothing else. -/
def checkedAt (g : Nat → String → String) (question : String) (k : Nat) :
    String :=
  g (k + 1) (doubleCheckerInstr question (rawAt g question k))

/-- Spec side: the answers of n repetitions listed in repetition order,
each element computed directly from its own call index, raw answer before
checked answer within a repetition. -/
def indexedPairs (g : Nat → String → String) (question : String)
    (k : Nat) : Nat → List String
  | 0 => []
  | n + 1 =>
    rawAt g question k :: checkedAt g question k
      :: indexedPairs g question (k + 2) n

/-- Spec side: the checked answers only, one per repetition, in repetition
order, each computed directly from its own call index. -/
def checkedOnly (g : Nat → String → String) (question : String)
    (k : Nat) : Nat → List String
  | 0 => []
  | n + 1 => checkedAt g question k :: checkedOnly g question (k + 2) n

/-- Raw answer obtained from a deterministic endpoint f, computed from the
question alone. -/
def rawPure (f : String → String) (question : String) : String :=
  f (initialQInstr question)

/-- Checked answer obtained from a deterministic endpoint f, computed from
the question alone. -/
def checkedPure (f : String → String) (question : String) : String :=
  f (doubleCheckerInstr question (rawPure f question))

/-- Spec side: the Answer Collection described by the specification for a
deterministic endpoint: each of the R repetitions contributes, computed
independently from the question alone, its raw and its checked answer, and
the pairs are concatenated in repetition order. -/
def pureAnswers (f : String → String) (question : String) (R : Nat) :
    List String :=
  (List.replicate R [rawPure f question, checkedPure f question]).flatten

/-- Spec side: the deterministic composition of the five template steps in
the fixed order initial question, double checker (within each of the R
repetitions), comparison, resolution, summary, for a deterministic
endpoint f. -/
def pureSummary (f : String → String) (R : Nat) (question : String) :
    String :=
  f (summaryInstr (f (finalAnswerInstr (f (comparisonInstr R question
    (aggregate (pureAnswers f question R)))))))

/-- Summary produced by the synthesis phase as a function of the oracle,
the repetition count, the question, the aggregated block, and the index k
of the first synthesis call only. -/
def synthSummary (g : Nat → String → String) (R : Nat)
    (question answersBlock : String) (k : Nat) : String :=
  g (k + 2) (summaryInstr (g (k + 1) (finalAnswerInstr
    (g k (comparisonInstr R question answersBlock)))))

/-- Instructions issued by the synthesis phase as a function of the oracle,
the repetition count, the question, the aggregated block, and the index of
the first synthesis call only. -/
def synthCalls (g : Nat → String → String) (R : Nat)
    (question answersBlock : String) (k : Nat) : List String :=
  [comparisonInstr R question answersBlock,
   finalAnswerInstr (g k (comparisonInstr R question answersBlock)),
   summaryInstr (g (k + 1) (finalAnswerInstr
     (g k (comparisonInstr R question answersBlock))))]

/-! Helper lemmas about the delimiter count. -/

theorem dataMk (l : List Char) : (⟨l⟩ : String).data = l := rfl

theorem countTicks_cons_ne {c : Char} (hc : c ≠ sqc) (v : List Char) :
    countTicks (c :: v) = countTicks v := by
  match v with
  | [] => simp [countTicks]
  | [x] => simp [countTicks]
  | x :: y :: t => simp [countTicks, hc]

theorem countTicks_cons_cons_ne {c : Char} (hc : c ≠ sqc) (a : Char)
    (v : List Char) : countTicks (a :: c :: v) = countTicks (c :: v) := by
  match v with
  | [] => simp [countTicks]
  | x :: t => simp [countTicks, hc]

theorem countTicks_tick3_prepend (x : List Char) :
    countTicks (sqc :: sqc :: sqc :: x) = 1 + countTicks x := by
  simp [countTicks]

theorem countTicks_append_cons :
    ∀ (n : Nat) (u : List Char), u.length ≤ n → ∀ (c : Char), c ≠ sqc →
      ∀ (v : List Char), countTicks (u ++ c :: v) = countTicks u + countTicks v := by
  intro n
  induction n with
  | zero =>
    intro u hu c hc v
    have hu0 : u = [] := List.length_eq_zero.mp (Nat.le_zero.mp hu)
    subst hu0
    simp [countTicks_cons_ne hc, countTicks]
  | succ n ih =>
    intro u hu c hc v
    match u with
    | [] => simp [countTicks_cons_ne hc, countTicks]
    | [a] =>
      simp only [List.cons_append, List.nil_append]
      rw [countTicks_cons_cons_ne hc, countTicks_cons_ne hc]
      simp [countTicks]
    | [a, b] =>
      simp only [List.cons_append, List.nil_append]
      have hb : countTicks (a :: b :: c :: v) = countTicks (b :: c :: v) := by
        simp [countTicks, hc]
      rw [hb, countTicks_cons_cons_ne hc, countTicks_cons_ne hc]
      simp [countTicks]
    | a :: b :: d :: t =>
      simp only [List.cons_append]
      by_cases habd : a = sqc ∧ b = sqc ∧ d = sqc
      · have ht : t.length ≤ n := by
          simp only [List.length_cons] at hu; omega
        obtain ⟨h1, h2, h3⟩ := habd
        subst h1; subst h2; subst h3
        rw [countTicks_tick3_prepend, countTicks_tick3_prepend,
          ih t ht c hc v]
        omega
      · have ht : (b :: d :: t).length ≤ n := by
          simp only [List.length_cons] at hu ⊢; omega
        have h1 : countTicks (a :: b :: d :: (t ++ c :: v))
            = countTicks (b :: d :: (t ++ c :: v)) := by
          simp [countTicks, habd]
        have h2 : countTicks (a :: b :: d :: t)
            = countTicks (b :: d :: t) := by
          simp [countTicks, habd]
        rw [h1, h2, show b :: d :: (t ++ c :: v) = (b :: d :: t) ++ c :: v from rfl,
          ih (b :: d :: t) ht c hc v]

theorem countTicks_split {c : Char} (hc : c ≠ sqc) (u v : List Char) :
    countTicks (u ++ c :: v) = countTicks u + countTicks v :=
  countTicks_append_cons u.length u (Nat.le_refl _) c hc v

theorem countTicks_eq_zero :
    ∀ {x : List Char}, ¬ ([sqc, sqc, sqc] <:+: x) → countTicks x = 0 := by
  intro x
  induction x with
  | nil => intro h; rfl
  | cons a t ih =>
    intro h
    match t, ih with
    | [], _ => rfl
    | [b], _ => rfl
    | b :: d :: t2, ih =>
      by_cases habd : a = sqc ∧ b = sqc ∧ d = sqc
      · exfalso
        apply h
        obtain ⟨h1, h2, h3⟩ := habd
        subst h1; subst h2; subst h3
        exact List.IsPrefix.isInfix ⟨t2, rfl⟩
      · have h1 : countTicks (a :: b :: d :: t2) = countTicks (b :: d :: t2) := by
          simp [countTicks, habd]
        rw [h1]
        apply ih
        intro hinf
        exact h (hinf.trans (List.IsSuffix.isInfix (List.suffix_cons a _)))

theorem countTicks_append_tick3 :
    ∀ {x : List Char}, ¬ ([sqc, sqc, sqc] <:+: x) →
      countTicks (x ++ [sqc, sqc, sqc]) = 1 := by
  intro x
  induction x with
  | nil => intro h; simp [countTicks]
  | cons a t ih =>
    intro h
    match t, ih with
    | [], _ =>
      by_cases ha : a = sqc
      · subst ha; simp [countTicks]
      · simp [countTicks, ha]
    | [b], _ =>
      by_cases hab : a = sqc ∧ b = sqc
      · obtain ⟨h1, h2⟩ := hab; subst h1; subst h2; simp [countTicks]
      · by_cases hb : b = sqc
        · subst hb
          have ha : a ≠ sqc := fun h' => hab ⟨h', rfl⟩
          simp [countTicks, ha]
        · simp [countTicks, hb]
    | b :: d :: t2, ih =>
      by_cases habd : a = sqc ∧ b = sqc ∧ d = sqc
      · exfalso
        apply h
        obtain ⟨h1, h2, h3⟩ := habd
        subst h1; subst h2; subst h3
        exact List.IsPrefix.isInfix ⟨t2, rfl⟩
      · have h1 : countTicks ((a :: b :: d :: t2) ++ [sqc, sqc, sqc])
            = countTicks ((b :: d :: t2) ++ [sqc, sqc, sqc]) := by
          simp only [List.cons_append]
          simp [countTicks, habd]
        rw [h1]
        apply ih
        intro hinf
        exact h (hinf.trans (List.IsSuffix.isInfix (List.suffix_cons a _)))

theorem tickSep_data : tickSep.data = [sqc, sqc, sqc] ++ '\n' :: [sqc, sqc, sqc] :=
  rfl

theorem tick3_data : tick3.data = [sqc, sqc, sqc] := rfl

theorem nl1_data : nl1.data = ['\n'] := rfl

theorem countTicks_pyJoin :
    ∀ (l : List String), l ≠ [] →
      (∀ a ∈ l, ¬ ([sqc, sqc, sqc] <:+: a.data)) →
      countTicks ((pyJoin tickSep l).data) = 2 * (l.length - 1) := by
  intro l
  induction l with
  | nil => intro h; exact absurd rfl h
  | cons a t ih =>
    intro _ hno
    match t, ih with
    | [], _ =>
      simp only [pyJoin, List.length_cons, List.length_nil]
      have := countTicks_eq_zero (hno a (List.mem_cons_self a []))
      omega
    | b :: t2, ih =>
      have hdata : (pyJoin tickSep (a :: b :: t2)).data
          = (a.data ++ [sqc, sqc, sqc])
            ++ '\n' :: ([sqc, sqc, sqc] ++ (pyJoin tickSep (b :: t2)).data) := by
        show (a ++ tickSep ++ pyJoin tickSep (b :: t2)).data = _
        simp [String.data_append, tickSep_data]
      rw [hdata, countTicks_split (by decide : ('\n' : Char) ≠ sqc)]
      rw [countTicks_append_tick3 (hno a (List.mem_cons_self a _))]
      rw [show ([sqc, sqc, sqc] ++ (pyJoin tickSep (b :: t2)).data)
          = sqc :: sqc :: sqc :: (pyJoin tickSep (b :: t2)).data from rfl]
      rw [countTicks_tick3_prepend]
      have hrec := ih (by simp) (fun x hx => hno x (List.mem_cons_of_mem a hx))
      rw [hrec]
      simp only [List.length_cons]
      omega

theorem aggregate_eq_wrapped :
    ∀ (l : List String), l ≠ [] →
      aggregate l = pyJoin nl1 (l.map fun a => tick3 ++ a ++ tick3) := by
  intro l
  induction l with
  | nil => intro h; exact absurd rfl h
  | cons a t ih =>
    intro _
    match t, ih with
    | [], _ => rfl
    | b :: t2, ih =>
      have ih2 := ih (by simp)
      have expand : pyJoin nl1 (List.map (fun a => tick3 ++ a ++ tick3) (a :: b :: t2))
          = (tick3 ++ a ++ tick3) ++ nl1
            ++ pyJoin nl1 (List.map (fun a => tick3 ++ a ++ tick3) (b :: t2)) := by
        simp [pyJoin]
      rw [expand, ← ih2]
      apply String.ext
      simp [aggregate, pyJoin, String.data_append, tickSep_data, tick3_data,
        nl1_data]

/-! Helper lemmas about the workflow. -/

theorem repetitionLoop_answers (g : Nat → String → String) (q : String) :
    ∀ (n : Nat) (s : EndpointState),
      (repetitionLoop g q s n).1.1 = indexedPairs g q s.calls.length n
        ∧ (repetitionLoop g q s n).1.2 = checkedOnly g q s.calls.length n
        ∧ (repetitionLoop g q s n).2.calls.length = s.calls.length + 2 * n := by
  intro n
  induction n with
  | zero => intro s; simp [repetitionLoop, indexedPairs, checkedOnly]
  | succ n ih =>
    intro s
    have hstep : question_chain g q s
        = ((rawAt g q s.calls.length, checkedAt g q s.calls.length),
           ⟨s.calls ++ [initialQInstr q]
             ++ [doubleCheckerInstr q (rawAt g q s.calls.length)]⟩) := by
      simp [question_chain, callModel, rawAt, checkedAt]
    have ih2 := ih ⟨s.calls ++ [initialQInstr q]
      ++ [doubleCheckerInstr q (rawAt g q s.calls.length)]⟩
    have hlen2 : (EndpointState.mk (s.calls ++ [initialQInstr q]
        ++ [doubleCheckerInstr q (rawAt g q s.calls.length)])).calls.length
        = s.calls.length + 2 := by simp
    rw [hlen2] at ih2
    refine ⟨?_, ?_, ?_⟩
    · simp only [repetitionLoop, hstep, indexedPairs]
      rw [ih2.1]
    · simp only [repetitionLoop, hstep, checkedOnly]
      rw [ih2.2.1]
    · simp only [repetitionLoop, hstep]
      rw [ih2.2.2]
      omega

theorem indexedPairs_length (g : Nat → String → String) (q : String) :
    ∀ (n k : Nat), (indexedPairs g q k n).length = 2 * n
      ∧ (checkedOnly g q k n).length = n := by
  intro n
  induction n with
  | zero => intro k; simp [indexedPairs, checkedOnly]
  | succ n ih =>
    intro k
    obtain ⟨h1, h2⟩ := ih (k + 2)
    constructor
    · simp only [indexedPairs, List.length_cons, h1]
      omega
    · simp only [checkedOnly, List.length_cons, h2]

theorem indexedPairs_getElem (g : Nat → String → String) (q : String) :
    ∀ (n k i : Nat), i < n →
      (indexedPairs g q k n)[2 * i]? = some (rawAt g q (k + 2 * i))
        ∧ (indexedPairs g q k n)[2 * i + 1]? = some (checkedAt g q (k + 2 * i))
        ∧ (checkedOnly g q k n)[i]? = some (checkedAt g q (k + 2 * i)) := by
  intro n
  induction n with
  | zero => intro k i hi; omega
  | succ n ih =>
    intro k i hi
    match i with
    | 0 => simp [indexedPairs, checkedOnly]
    | i + 1 =>
      have hrec := ih (k + 2) i (by omega)
      have e2 : k + 2 + 2 * i = k + (2 * i + 1 + 1) := by omega
      rw [e2] at hrec
      have hidx : 2 * (i + 1) = 2 * i + 1 + 1 := by omega
      refine ⟨?_, ?_, ?_⟩
      · rw [hidx]
        simp only [indexedPairs, List.getElem?_cons_succ]
        exact hrec.1
      · rw [hidx]
        simp only [indexedPairs, List.getElem?_cons_succ]
        exact hrec.2.1
      · rw [hidx]
        simp only [checkedOnly, List.getElem?_cons_succ]
        exact hrec.2.2

theorem sequential_chain_eval (g : Nat → String → String) (R : Nat)
    (q a : String) (s : EndpointState) :
    (sequential_chain g R q a s).1.2.2 = synthSummary g R q a s.calls.length
      ∧ (sequential_chain g R q a s).2.calls
          = s.calls ++ synthCalls g R q a s.calls.length := by
  constructor
  · simp [sequential_chain, callModel, synthSummary]
  · simp [sequential_chain, callModel, synthCalls]

theorem runWorkflow_unfold (g : Nat → String → String) (R : Nat) (q : String) :
    (runWorkflow g R q).initial_answers = indexedPairs g q 0 R
      ∧ (runWorkflow g R q).checked_answer = checkedOnly g q 0 R
      ∧ (runWorkflow g R q).answers = aggregate (indexedPairs g q 0 R)
      ∧ (runWorkflow g R q).summary
          = synthSummary g R q (aggregate (indexedPairs g q 0 R)) (2 * R)
      ∧ (runWorkflow g R q).repCalls.length = 2 * R
      ∧ (runWorkflow g R q).seqCalls
          = synthCalls g R q (aggregate (indexedPairs g q 0 R)) (2 * R) := by
  have hloop := repetitionLoop_answers g q R ⟨[]⟩
  have h0 : (EndpointState.mk ([] : List String)).calls.length = 0 := rfl
  rw [h0] at hloop
  have hia : (repetitionLoop g q ⟨[]⟩ R).1.1 = indexedPairs g q 0 R := hloop.1
  have hca : (repetitionLoop g q ⟨[]⟩ R).1.2 = checkedOnly g q 0 R := hloop.2.1
  have hlen : (repetitionLoop g q ⟨[]⟩ R).2.calls.length = 2 * R := by
    rw [hloop.2.2]
    omega
  have hseq := sequential_chain_eval g R q
    (aggregate (repetitionLoop g q ⟨[]⟩ R).1.1) (repetitionLoop g q ⟨[]⟩ R).2
  rw [hlen] at hseq
  refine ⟨?_, ?_, ?_, ?_, ?_, ?_⟩
  · simpa [runWorkflow] using hia
  · simpa [runWorkflow] using hca
  · simp [runWorkflow, hia]
  · show (sequential_chain g R q (aggregate (repetitionLoop g q ⟨[]⟩ R).1.1)
      (repetitionLoop g q ⟨[]⟩ R).2).1.2.2 = _
    rw [hseq.1, hia]
  · simpa [runWorkflow] using hlen
  · show ((sequential_chain g R q (aggregate (repetitionLoop g q ⟨[]⟩ R).1.1)
      (repetitionLoop g q ⟨[]⟩ R).2).2.calls.drop
        (repetitionLoop g q ⟨[]⟩ R).2.calls.length) = _
    rw [hseq.2, hia]
    exact List.drop_left _ _

theorem indexedPairs_det (f : String → String) (q : String) :
    ∀ (n k : Nat), indexedPairs (fun _ instr => f instr) q k n = pureAnswers f q n := by
  intro n
  induction n with
  | zero => intro k; simp [indexedPairs, pureAnswers]
  | succ n ih =>
    intro k
    simp only [indexedPairs, pureAnswers, List.replicate_succ, List.flatten_cons,
      ih (k + 2)]
    simp [rawAt, checkedAt, rawPure, checkedPure, pureAnswers]

theorem checkedOnly_det (f : String → String) (q : String) :
    ∀ (n k : Nat), checkedOnly (fun _ instr => f instr) q k n
      = List.replicate n (checkedPure f q) := by
  intro n
  induction n with
  | zero => intro k; simp [checkedOnly]
  | succ n ih =>
    intro k
    simp only [checkedOnly, List.replicate_succ, ih (k + 2)]
    simp [checkedAt, rawAt, checkedPure, rawPure]

/-! Claim theorems. -/

/-- C1: for every question and every deterministic completion endpoint, each
call a pure function of its instruction string, the final displayed summary
equals the deterministic composition of the five template-formatting steps
applied in the fixed order initial question, double checker (within each of
the R repetitions), comparison, resolution, summary; the resolution
instruction embeds the comparison narrative between the fixed bracket
sequences, and the summary instruction prefixes the final candidate answer
with the fixed be-concise instruction. -/
theorem c1_summary_is_deterministic_composition (f : String → String)
    (R : Nat) (q : String) :
    (runWorkflow (fun _ instr => f instr) R q).summary = pureSummary f R q
      ∧ (∀ c, finalAnswerInstr c = _FINAL_ANSWER_PROMPT ++ " <<<" ++ c ++ ">>>")
      ∧ (∀ a, summaryInstr a = _SUMMARY_PROMPT ++ " " ++ a) := by
  refine ⟨?_, fun _ => rfl, fun _ => rfl⟩
  have h := (runWorkflow_unfold (fun _ instr => f instr) R q).2.2.2.1
  rw [h, indexedPairs_det f q R 0]
  rfl

/-- C2 as stated is false: with R = 1 and the two collected answers a and b,
the interior of the aggregated block holds two delimiter occurrences, not
2R - 1 = 1, and the block is not the join of the answers with the
three-character delimiter alone. -/
theorem c2_counterexample :
    countTicks ((pyJoin tickSep ["a", "b"]).data) ≠ 2 * 1 - 1
      ∧ aggregate ["a", "b"] ≠ tick3 ++ pyJoin tick3 ["a", "b"] ++ tick3 := by
  decide

/-- C2 amended: for R at least 1 and 2R collected answers none containing
the delimiter, the aggregated block starts and ends with the three-character
delimiter, its interior (the join between the outer delimiters) holds
exactly 2(2R - 1) delimiter occurrences, and the block is obtained by
joining the answers with the seven-character separator of triple quote,
newline, triple quote and wrapping the result in the delimiter. -/
theorem c2_amended_aggregated_block (R : Nat) (hR : 1 ≤ R) (l : List String)
    (hlen : l.length = 2 * R)
    (hno : ∀ a ∈ l, ¬ ([sqc, sqc, sqc] <:+: a.data)) :
    [sqc, sqc, sqc] <+: (aggregate l).data
      ∧ [sqc, sqc, sqc] <:+ (aggregate l).data
      ∧ countTicks ((pyJoin tickSep l).data) = 2 * (2 * R - 1)
      ∧ aggregate l = tick3 ++ pyJoin (tick3 ++ nl1 ++ tick3) l ++ tick3 := by
  have hne : l ≠ [] := by
    intro h
    subst h
    simp at hlen
    omega
  refine ⟨?_, ?_, ?_, rfl⟩
  · exact ⟨(pyJoin tickSep l).data ++ [sqc, sqc, sqc], by
      simp [aggregate, String.data_append, tick3_data]⟩
  · exact ⟨[sqc, sqc, sqc] ++ (pyJoin tickSep l).data, by
      simp [aggregate, String.data_append, tick3_data]⟩
  · rw [countTicks_pyJoin l hne hno, hlen]

/-- Witness for the amended C2 at R = 1 with answers a and b. -/
theorem c2_amended_witness :
    [sqc, sqc, sqc] <+: (aggregate ["a", "b"]).data
      ∧ [sqc, sqc, sqc] <:+ (aggregate ["a", "b"]).data
      ∧ countTicks ((pyJoin tickSep ["a", "b"]).data) = 2 * (2 * 1 - 1)
      ∧ aggregate ["a", "b"]
          = tick3 ++ pyJoin (tick3 ++ nl1 ++ tick3) ["a", "b"] ++ tick3 :=
  c2_amended_aggregated_block 1 (by decide) ["a", "b"] (by decide) (by decide)

/-- C3: for every repetition count R, after the repetition loop completes
the Answer Collection passed into aggregation holds exactly 2R strings. -/
theorem c3_collection_size (g : Nat → String → String) (R : Nat)
    (q : String) :
    (runWorkflow g R q).initial_answers.length = 2 * R := by
  rw [(runWorkflow_unfold g R q).1, (indexedPairs_length g q R 0).1]

/-- C4: for every repetition count R and every non-empty question, the
repetition phase issues exactly 2R completion-endpoint calls and the
comparison, resolution and summary phase issues exactly 3 calls regardless
of R. -/
theorem c4_call_counts (g : Nat → String → String) (R : Nat) (q : String)
    (hq : q ≠ "") :
    ∃ r, submitApp g R true q = some r
      ∧ r.repCalls.length = 2 * R ∧ r.seqCalls.length = 3 := by
  refine ⟨runWorkflow g R q, ?_, (runWorkflow_unfold g R q).2.2.2.2.1, ?_⟩
  · simp [submitApp, hq]
  · rw [(runWorkflow_unfold g R q).2.2.2.2.2]
    rfl

/-- Witness for C4: R = 2 gives 4 repetition-phase calls and R = 3 gives 6,
with 3 synthesis-phase calls in both cases. -/
theorem c4_witness :
    (∃ r, submitApp (fun _ _ => "ok") 2 true "What is 2+2?" = some r
      ∧ r.repCalls.length = 2 * 2 ∧ r.seqCalls.length = 3)
      ∧ (∃ r, submitApp (fun _ _ => "ok") 3 true "What is 2+2?" = some r
        ∧ r.repCalls.length = 2 * 3 ∧ r.seqCalls.length = 3) :=
  ⟨c4_call_counts (fun _ _ => "ok") 2 "What is 2+2?" (by decide),
   c4_call_counts (fun _ _ => "ok") 3 "What is 2+2?" (by decide)⟩

/-- C5: submitting the empty question produces no run at all: the workflow
result is absent and no instruction is sent to the completion endpoint. -/
theorem c5_empty_question_suppressed (g : Nat → String → String) (R : Nat)
    (sb : Bool) :
    submitApp g R sb "" = none ∧ callsOf (submitApp g R sb "") = [] := by
  have h : submitApp g R sb "" = none := by simp [submitApp]
  refine ⟨h, ?_⟩
  rw [h]
  rfl

/-- C6: for every repetition count and every sequence of endpoint
responses, the collected answers appear in the aggregated block exactly in
repetition order: repetition i contributes its raw answer at position 2i
and its double-checked answer at position 2i + 1, and the block is the
aggregation of that list. -/
theorem c6_repetition_order (g : Nat → String → String) (R : Nat)
    (q : String) :
    (runWorkflow g R q).initial_answers = indexedPairs g q 0 R
      ∧ (∀ i, i < R →
          (runWorkflow g R q).initial_answers[2 * i]?
              = some (rawAt g q (2 * i))
            ∧ (runWorkflow g R q).initial_answers[2 * i + 1]?
                = some (checkedAt g q (2 * i)))
      ∧ (runWorkflow g R q).answers = aggregate (indexedPairs g q 0 R) := by
  obtain ⟨h1, _, h3, _⟩ := runWorkflow_unfold g R q
  refine ⟨h1, ?_, h3⟩
  intro i hi
  obtain ⟨ha, hb, _⟩ := indexedPairs_getElem g q R 0 i hi
  simp only [Nat.zero_add] at ha hb
  rw [h1]
  exact ⟨ha, hb⟩

/-- Witness for C6 at R = 1 with a call-indexed stub endpoint. -/
theorem c6_witness :
    (runWorkflow (fun k _ => Nat.repr k) 1 "Q").initial_answers
        = indexedPairs (fun k _ => Nat.repr k) "Q" 0 1
      ∧ (runWorkflow (fun k _ => Nat.repr k) 1 "Q").initial_answers[2 * 0]?
          = some (rawAt (fun k _ => Nat.repr k) "Q" (2 * 0))
      ∧ (runWorkflow (fun k _ => Nat.repr k) 1 "Q").initial_answers[2 * 0 + 1]?
          = some (checkedAt (fun k _ => Nat.repr k) "Q" (2 * 0)) := by
  have h := c6_repetition_order (fun k _ => Nat.repr k) 1 "Q"
  exact ⟨h.1, (h.2.1 0 (by decide)).1, (h.2.1 0 (by decide)).2⟩

/-- C7: the checked-only collection holds exactly one string per
repetition, namely that repetition's double-checked answer, equals the odd
positions of the Answer Collection, and feeds none of the comparison,
resolution or summary steps: the summary and the synthesis instructions are
functions of the oracle, the repetition count, the question and the
aggregated block alone. -/
theorem c7_checked_only_collection (g : Nat → String → String) (R : Nat)
    (q : String) :
    (runWorkflow g R q).checked_answer = checkedOnly g q 0 R
      ∧ (runWorkflow g R q).checked_answer.length = R
      ∧ (∀ i, i < R → (runWorkflow g R q).checked_answer[i]?
          = (runWorkflow g R q).initial_answers[2 * i + 1]?)
      ∧ (runWorkflow g R q).summary
          = synthSummary g R q (runWorkflow g R q).answers (2 * R)
      ∧ (runWorkflow g R q).seqCalls
          = synthCalls g R q (runWorkflow g R q).answers (2 * R) := by
  obtain ⟨h1, h2, h3, h4, _, h6⟩ := runWorkflow_unfold g R q
  refine ⟨h2, ?_, ?_, ?_, ?_⟩
  · rw [h2, (indexedPairs_length g q R 0).2]
  · intro i hi
    obtain ⟨_, hb, hc⟩ := indexedPairs_getElem g q R 0 i hi
    rw [h1, h2, hb, hc]
  · rw [h4, h3]
  · rw [h6, h3]

/-- Witness for C7 at R = 1 with a call-indexed stub endpoint. -/
theorem c7_witness :
    (runWorkflow (fun k _ => Nat.repr k) 1 "Q").checked_answer.length = 1
      ∧ (runWorkflow (fun k _ => Nat.repr k) 1 "Q").checked_answer[0]?
          = (runWorkflow (fun k _ => Nat.repr k) 1 "Q").initial_answers[2 * 0 + 1]?
      ∧ (runWorkflow (fun k _ => Nat.repr k) 1 "Q").summary
          = synthSummary (fun k _ => Nat.repr k) 1 "Q"
              (runWorkflow (fun k _ => Nat.repr k) 1 "Q").answers (2 * 1) := by
  have h := c7_checked_only_collection (fun k _ => Nat.repr k) 1 "Q"
  exact ⟨h.2.1, h.2.2.1 0 (by decide), h.2.2.2.1⟩

/-- C8: with a deterministic endpoint no repetition depends on any other:
the sequential loop produces the same Answer Collection as R copies of the
(raw, checked) pair computed independently from the question alone,
concatenated in order, and the checked-only collection is R copies of the
checked answer. -/
theorem c8_iterations_independent (f : String → String) (R : Nat)
    (q : String) :
    (runWorkflow (fun _ instr => f instr) R q).initial_answers
        = pureAnswers f q R
      ∧ (runWorkflow (fun _ instr => f instr) R q).checked_answer
          = List.replicate R (checkedPure f q)
      ∧ pureAnswers f q R
          = (List.replicate R [rawPure f q, checkedPure f q]).flatten := by
  refine ⟨?_, ?_, rfl⟩
  · rw [(runWorkflow_unfold (fun _ instr => f instr) R q).1,
      indexedPairs_det f q R 0]
  · rw [(runWorkflow_unfold (fun _ instr => f instr) R q).2.1,
      checkedOnly_det f q R 0]

/-- C9: for every non-empty Answer Collection whose members avoid the
delimiter, the aggregated block equals the newline join of the individually
wrapped answers, and its interior holds 2(n - 1) delimiter occurrences for
n answers. -/
theorem c9_block_newline_join (l : List String) (h1 : l ≠ [])
    (h2 : ∀ a ∈ l, ¬ ([sqc, sqc, sqc] <:+: a.data)) :
    aggregate l = pyJoin nl1 (l.map fun a => tick3 ++ a ++ tick3)
      ∧ countTicks ((pyJoin tickSep l).data) = 2 * (l.length - 1) :=
  ⟨aggregate_eq_wrapped l h1, countTicks_pyJoin l h1 h2⟩

/-- Witness for C9 with the two answers a and b. -/
theorem c9_witness :
    aggregate ["a", "b"]
        = pyJoin nl1 (["a", "b"].map fun a => tick3 ++ a ++ tick3)
      ∧ countTicks ((pyJoin tickSep ["a", "b"]).data)
          = 2 * ((["a", "b"] : List String).length - 1) :=
  c9_block_newline_join ["a", "b"] (by decide) (by decide)

/-- C10: for every repetition count R at least 1, the comparison
instruction embeds the decimal rendering of R as the stated answer count
while the aggregated block it carries holds 2R answers, and 2R never
equals R. -/
theorem c10_stated_count_mismatch (g : Nat → String → String) (R : Nat)
    (q : String) (hR : 1 ≤ R) :
    (runWorkflow g R q).initial_answers.length = 2 * R
      ∧ (runWorkflow g R q).seqCalls[0]?
          = some (comparisonInstr R q (runWorkflow g R q).answers)
      ∧ (∀ b, comparisonInstr R q b
          = _COMPARISON_PROMPT_PRE ++ Nat.repr R ++ _COMPARISON_PROMPT_MID
            ++ q ++ _COMPARISON_PROMPT_POST ++ " " ++ b)
      ∧ 2 * R ≠ R := by
  obtain ⟨h1, _, h3, _, _, h6⟩ := runWorkflow_unfold g R q
  refine ⟨?_, ?_, fun b => rfl, by omega⟩
  · rw [h1, (indexedPairs_length g q R 0).1]
  · rw [h6, h3]
    rfl

/-- Witness for C10 at R = 1. -/
theorem c10_witness :
    (runWorkflow (fun _ _ => "ok") 1 "Q").initial_answers.length = 2 * 1
      ∧ 2 * 1 ≠ 1 := by
  have h := c10_stated_count_mismatch (fun _ _ => "ok") 1 "Q" (by decide)
  exact ⟨h.1, h.2.2.2⟩

end SmarterGPT
